import Mathlib

/-!
Verification of the session-streaming client protocol of the
financial-advisor-adk repository.

The embedding models the two stream-consumption loops of the repository
(`streamlit_app.py` lines 157-188 and `use_agent.py` lines 68-79), the
Streamlit chat handler (lines 143-206), session creation (lines 75-83) and
the sidebar session selector (lines 124-126).  Streamed fragments are
arbitrary Python values, so they are embedded as a small dynamic value type
`PyVal` together with the partial Python operations the source uses on them
(`in` membership tests, `[...]` subscripting, iteration): these operations
raise `TypeError` on ill-typed operands exactly as CPython does, which is
essential to settle the fragment-shape claims faithfully.
-/

/-- A Python runtime value, restricted to the shapes that can appear as
streamed fragments or inside them: strings, integers, dictionaries with
string keys, lists, and `None`. -/
inductive PyVal where
  | str (s : String)
  | int (n : Int)
  | dict (entries : List (String × PyVal))
  | list (xs : List PyVal)
  | none

/-- Association-list lookup, modelling Python dictionary key lookup
(keys in the model are strings, as in every dictionary the source builds). -/
def pyLookup : List (String × PyVal) → String → Option PyVal
  | [], _ => Option.none
  | (k, v) :: rest, key => if k = key then some v else pyLookup rest key

/-- Substring test on strings, modelling Python `needle in s` for strings. -/
def strContainsSub (s needle : String) : Bool :=
  s.data.tails.any (fun t => needle.data.isPrefixOf t)

/-- Python `==` between a value and a string literal: only equal strings
compare equal, every other runtime type compares unequal without raising. -/
def pyEqStr (needle : String) : PyVal → Bool
  | .str s => s = needle
  | _ => false

/-- Python membership test `needle in v` for a string `needle`:
substring test on strings, key test on dictionaries, element test on lists,
`TypeError` on non-container values such as integers or `None`. -/
def pyIn (needle : String) : PyVal → Except String Bool
  | .str s => .ok (strContainsSub s needle)
  | .dict entries => .ok (pyLookup entries needle).isSome
  | .list xs => .ok (xs.any (pyEqStr needle))
  | .int _ => .error "TypeError: argument of type int is not iterable"
  | .none => .error "TypeError: argument of type NoneType is not iterable"

/-- Python subscripting `v[key]` with a string key: dictionary lookup
(`KeyError` when absent), `TypeError` on strings, lists and other values. -/
def pyIndexStr : PyVal → String → Except String PyVal
  | .dict entries, key =>
    match pyLookup entries key with
    | some v => .ok v
    | Option.none => .error "KeyError"
  | .str _, _ => .error "TypeError: string indices must be integers"
  | .list _, _ => .error "TypeError: list indices must be integers"
  | .int _, _ => .error "TypeError: int object is not subscriptable"
  | .none, _ => .error "TypeError: NoneType object is not subscriptable"

/-- Python iteration `for x in v`: lists yield their elements, strings their
one-character substrings, dictionaries their keys; other values raise
`TypeError`. -/
def pyIter : PyVal → Except String (List PyVal)
  | .list xs => .ok xs
  | .str s => .ok (s.data.map (fun c => .str (String.mk [c])))
  | .dict entries => .ok (entries.map (fun kv => .str kv.1))
  | .int _ => .error "TypeError: int object is not iterable"
  | .none => .error "TypeError: NoneType object is not iterable"

/-!
## Response aggregation (streamlit_app.py, lines 167-178)

The aggregation state is the accumulator string `full_response_content`
together with the trace of placeholder updates: each
`message_placeholder.markdown(full_response_content + "▌")` call is recorded
as the accumulated text it displays (the rendering appends a cursor glyph,
which is presentation, not accumulated text).  Processing a fragment either
succeeds, extending accumulator and trace, or raises a `TypeError`, in which
case the (accumulator, trace) reached so far is kept and the error recorded.
-/

/-- Process the parts of one structured fragment
(`for part in chunk["content"]["parts"]`, lines 171-174): a part carrying a
string under `"text"` is appended to the accumulator and the placeholder is
updated; a part without a `"text"` member is skipped; an ill-typed part or a
non-string text value raises. -/
def processParts : List PyVal → String → List String → (String × List String) × Option String
  | [], acc, calls => ((acc, calls), Option.none)
  | p :: ps, acc, calls =>
    match pyIn "text" p with
    | .error e => ((acc, calls), some e)
    | .ok false => processParts ps acc calls
    | .ok true =>
      match pyIndexStr p "text" with
      | .error e => ((acc, calls), some e)
      | .ok (.str t) => processParts ps (acc ++ t) (calls ++ [acc ++ t])
      | .ok _ => ((acc, calls), some "TypeError: can only concatenate str to str")

/-- Process one streamed chunk (lines 170-178):
`if isinstance(chunk, dict) and "content" in chunk and "parts" in chunk["content"]`
iterates the parts; `elif isinstance(chunk, str)` appends the chunk itself and
updates the placeholder; every other chunk is skipped.  The shape probing
itself can raise (`"parts" in chunk["content"]` on a non-container content,
subscripting a string content, iterating a non-iterable parts value). -/
def aggStep (acc : String) (calls : List String) (chunk : PyVal) :
    (String × List String) × Option String :=
  match chunk with
  | .dict entries =>
    match pyLookup entries "content" with
    | Option.none => ((acc, calls), Option.none)
    | some content =>
      match pyIn "parts" content with
      | .error e => ((acc, calls), some e)
      | .ok false => ((acc, calls), Option.none)
      | .ok true =>
        match pyIndexStr content "parts" with
        | .error e => ((acc, calls), some e)
        | .ok partsVal =>
          match pyIter partsVal with
          | .error e => ((acc, calls), some e)
          | .ok parts => processParts parts acc calls
  | .str s => ((acc ++ s, calls ++ [acc ++ s]), Option.none)
  | _ => ((acc, calls), Option.none)

/-- Drive the `async for chunk in response_stream` loop over the fragments
the stream yields, stopping at the first raised error and keeping the
progress made up to it. -/
def aggregateAux : List PyVal → String → List String → (String × List String) × Option String
  | [], acc, calls => ((acc, calls), Option.none)
  | c :: cs, acc, calls =>
    match aggStep acc calls c with
    | ((acc1, calls1), Option.none) => aggregateAux cs acc1 calls1
    | ((acc1, calls1), some e) => ((acc1, calls1), some e)

/-- The aggregation loop started on an empty accumulator, as in
`get_response_and_session`: returns the final accumulated text, the trace of
placeholder updates, and the raised error if processing a fragment raised. -/
def aggregate (chunks : List PyVal) : (String × List String) × Option String :=
  aggregateAux chunks "" []

example : (aggregate [PyVal.dict [("content", PyVal.dict [("parts",
    PyVal.list [PyVal.dict [("text", PyVal.str "Ticker ")]])])],
    PyVal.dict [("content", PyVal.dict [("parts",
    PyVal.list [PyVal.dict [("text", PyVal.str "GOOGL")]])])]]) =
    (("Ticker GOOGL", ["Ticker ", "Ticker GOOGL"]), Option.none) := by decide

example : (aggregate [PyVal.dict [("content", PyVal.int 5)]]).2 =
    some "TypeError: argument of type int is not iterable" := by decide

example : (aggregate [PyVal.int 7, PyVal.str "hi"]) =
    (("hi", ["hi"]), Option.none) := by decide

/-!
## The command-line client loop (use_agent.py, lines 68-79)

The printing loop of `use_agent.py` differs from the Streamlit one: its
condition `if "content" in event and "parts" in event["content"]` performs no
`isinstance` check first, so the membership test itself runs on an arbitrary
event, and `print(part["text"], ...)` prints values of any type.  The model
records the values printed on the text path and on the raw-string path. -/

/-- Process the parts of one event in the command-line loop (lines 75-77):
`print(part["text"], end="")` for every part with a `"text"` member. -/
def useAgentParts : List PyVal → List PyVal → List PyVal × Option String
  | [], out => (out, Option.none)
  | p :: ps, out =>
    match pyIn "text" p with
    | .error e => (out, some e)
    | .ok false => useAgentParts ps out
    | .ok true =>
      match pyIndexStr p "text" with
      | .error e => (out, some e)
      | .ok tv => useAgentParts ps (out ++ [tv])

/-- Process one event of the command-line loop (lines 73-79).  Note that the
condition `"content" in event` runs before any type check, so a non-iterable
event (an integer, `None`) raises `TypeError` here. -/
def useAgentStep (out : List PyVal) (event : PyVal) : List PyVal × Option String :=
  match pyIn "content" event with
  | .error e => (out, some e)
  | .ok true =>
    match pyIndexStr event "content" with
    | .error e => (out, some e)
    | .ok content =>
      match pyIn "parts" content with
      | .error e => (out, some e)
      | .ok true =>
        match pyIndexStr content "parts" with
        | .error e => (out, some e)
        | .ok partsVal =>
          match pyIter partsVal with
          | .error e => (out, some e)
          | .ok parts => useAgentParts parts out
      | .ok false =>
        match event with
        | .str s => (out ++ [.str s], Option.none)
        | _ => (out, Option.none)
  | .ok false =>
    match event with
    | .str s => (out ++ [.str s], Option.none)
    | _ => (out, Option.none)

/-- The `async for event in remote_agent.async_stream_query(...)` loop of
`use_agent.py`, stopping at the first raised error. -/
def useAgentRun : List PyVal → List PyVal → List PyVal × Option String
  | [], out => (out, Option.none)
  | e :: es, out =>
    match useAgentStep out e with
    | (out1, Option.none) => useAgentRun es out1
    | (out1, some err) => (out1, some err)

example : (useAgentRun [PyVal.int 5] []).2 =
    some "TypeError: argument of type int is not iterable" := by decide

/-!
## Session model and controller (streamlit_app.py, lines 75-83 and 143-206)
-/

/-- Role of one chat turn in the per-session message history. -/
inductive Role where
  | user
  | assistant
deriving DecidableEq

/-- One entry of a session's message history, as appended on lines 148-150
and 195-197: `{"role": ..., "content": ...}`. -/
structure Turn where
  role : Role
  content : String
deriving DecidableEq

/-- A session object as returned by `create_session` / `async_get_session`:
a dictionary with an `"id"` key; the rest of the document is opaque to the
client (it only ever reads `s["id"]` and stores the object whole), so it is
embedded as an opaque snapshot string. -/
structure SessionObj where
  id : String
  snapshot : String
deriving DecidableEq

/-- The Streamlit session state the chat client mutates:
`st.session_state.session_id`, `st.session_state.sessions`,
`st.session_state.messages` (a dictionary keyed by the value of
`session_id`, hence `Option String` keys) and `st.session_state.user_id`. -/
structure AppState where
  session_id : Option String
  sessions : List SessionObj
  messages : List (Option String × List Turn)
  user_id : String
deriving DecidableEq

/-- Lookup in the messages dictionary. -/
def getMsgs (m : List (Option String × List Turn)) (k : Option String) :
    Option (List Turn) :=
  match m with
  | [] => Option.none
  | (k1, v) :: rest => if k1 = k then some v else getMsgs rest k

/-- Update (or insert at the end, as Python dictionaries do for a fresh key)
one entry of the messages dictionary. -/
def updMsgs (m : List (Option String × List Turn)) (k : Option String)
    (v : List Turn) : List (Option String × List Turn) :=
  match m with
  | [] => [(k, v)]
  | (k1, v1) :: rest => if k1 = k then (k, v) :: rest else (k1, v1) :: updMsgs rest k v

/-- The reconciliation overwrite of lines 199-203: replace the first stored
session whose `"id"` equals the active session id by the freshly fetched
session object, and `break`; every other entry is untouched. -/
def updateSessions (l : List SessionObj) (sid : Option String) (upd : SessionObj) :
    List SessionObj :=
  match l with
  | [] => []
  | s :: rest => if some s.id = sid then upd :: rest else s :: updateSessions rest sid upd

/-- `create_new_session` (lines 75-83): one call to
`agent.create_session(user_id=...)`, whose outcome is the `result` argument.
If the call raises, the exception propagates before any assignment runs, so
the state is returned unchanged together with the error; on success the
session id is set, the object appended to the session list, and an empty
message history installed for the new id. -/
def create_new_session (st : AppState) (result : Except String SessionObj) :
    AppState × Option String :=
  match result with
  | .error e => (st, some e)
  | .ok obj =>
    ({ st with
        session_id := some obj.id,
        sessions := st.sessions ++ [obj],
        messages := updMsgs st.messages (some obj.id) [] }, Option.none)

/-- The fragments a stream yields before terminating, and the error it (or
the transport) raises after them, if the stream does not end normally. -/
structure StreamRun where
  chunks : List PyVal
  failure : Option String

/-- Result of one `get_response_and_session` call: the returned pair or the
propagated exception, the trace of placeholder updates made while streaming,
and whether `async_get_session` was reached. -/
structure QueryResult where
  outcome : Except String (String × SessionObj)
  rendered : List String
  fetchedSession : Bool

/-- `get_response_and_session` (lines 157-188): drive the stream through the
aggregation loop; an error raised by a fragment's processing, or by the
stream itself after its fragments, propagates out of the coroutine — the
final placeholder update (line 179) and the `async_get_session` call (lines
184-186) run only when the loop finishes normally, and the function then
returns the accumulated text together with the fetched session object
(`serverSnapshot` is the value `async_get_session` returns). -/
def get_response_and_session (run : StreamRun) (serverSnapshot : SessionObj) :
    QueryResult :=
  match aggregate run.chunks with
  | ((_acc, calls), some e) =>
    { outcome := .error e, rendered := calls, fetchedSession := false }
  | ((acc, calls), Option.none) =>
    match run.failure with
    | some e => { outcome := .error e, rendered := calls, fetchedSession := false }
    | Option.none =>
      { outcome := .ok (acc, serverSnapshot), rendered := calls,
        fetchedSession := true }

/-- The module-level chat handler (lines 143-206), run when a prompt is
submitted.  It appends the user turn to the active session's history (lines
148-150, before any network call), runs `get_response_and_session`, and —
only if that returned normally — appends the assistant turn (lines 194-197)
and overwrites the stored session object (lines 199-203).  If the coroutine
raised, `asyncio.run` re-raises and the rest of the handler never runs: the
returned error is the unhandled exception. -/
def chatHandler (st : AppState) (prompt : String) (run : StreamRun)
    (serverSnapshot : SessionObj) : AppState × Option String :=
  let msgs1 := updMsgs st.messages st.session_id
    ((getMsgs st.messages st.session_id).getD [] ++ [⟨Role.user, prompt⟩])
  let st1 : AppState := { st with messages := msgs1 }
  match (get_response_and_session run serverSnapshot).outcome with
  | .error e => (st1, some e)
  | .ok (full, upd) =>
    ({ st1 with
        messages := updMsgs msgs1 st.session_id
          ((getMsgs msgs1 st.session_id).getD [] ++ [⟨Role.assistant, full⟩]),
        sessions := updateSessions st1.sessions st.session_id upd }, Option.none)

/-- The sidebar session selector (lines 124-126): if a non-empty selection
differs from the active session id, only the current-session pointer is
replaced; nothing else changes and no remote call is made. -/
def selectSession (st : AppState) (selected : String) : AppState :=
  if selected ≠ "" ∧ some selected ≠ st.session_id then
    { st with session_id := some selected }
  else st

/-!
## Spec-side fragment taxonomy

The specification classifies fragments as "either a structured event
carrying zero-or-more content parts (each part optionally containing a text
field) or a raw string"; everything else is an unknown fragment.  These
predicates follow the spec's words and are used only to state the claims
about that taxonomy against the source-derived aggregation above. -/

/-- Modelled from the spec: a structured event exposing content parts — a
dictionary whose `"content"` member is a dictionary whose `"parts"` member
is a list. -/
def isStructuredEvent : PyVal → Bool
  | .dict entries =>
    match pyLookup entries "content" with
    | some (.dict c) =>
      match pyLookup c "parts" with
      | some (.list _) => true
      | _ => false
    | _ => false
  | _ => false

/-- Modelled from the spec: a raw-string fragment. -/
def isRawString : PyVal → Bool
  | .str _ => true
  | _ => false

/-- Modelled from the spec: a content part "containing a text field" — a
dictionary carrying a string under `"text"`. -/
def partHasText : PyVal → Bool
  | .dict pd =>
    match pyLookup pd "text" with
    | some (.str _) => true
    | _ => false
  | _ => false

/-- Modelled from the spec: a fragment "carrying text" — a raw string, or a
structured event one of whose parts carries a string under `"text"`. -/
def specCarriesText : PyVal → Bool
  | .str _ => true
  | .dict entries =>
    match pyLookup entries "content" with
    | some (.dict c) =>
      match pyLookup c "parts" with
      | some (.list ps) => ps.any partHasText
      | _ => false
    | _ => false
  | _ => false

/-- Modelled from the spec: a turn sequence whose roles strictly alternate
starting with `user`, each user turn answered by an assistant turn. -/
def rolesAlternate : List Turn → Bool
  | [] => true
  | [_] => false
  | t1 :: t2 :: rest =>
    decide (t1.role = Role.user) && decide (t2.role = Role.assistant) &&
      rolesAlternate rest

/-- The prefix relation on strings: `a` followed by some suffix is `b`. -/
def StrPfx (a b : String) : Prop := ∃ t : String, a ++ t = b

/-- Shorthand for the event fragment `{"content": {"parts": [{"text": s}]}}`
used by the spec's concrete scenario. -/
def textEvent (s : String) : PyVal :=
  .dict [("content", .dict [("parts", .list [.dict [("text", .str s)]])])]

/-- A concrete app state used by witnesses and counterexamples: one session
`"s1"` for user `"u1"`, with an empty history. -/
def st0 : AppState :=
  { session_id := some "s1",
    sessions := [{ id := "s1", snapshot := "init" }],
    messages := [(some "s1", [])], user_id := "u1" }

/-- A concrete fetched snapshot for session `"s1"`. -/
def fetchedA : SessionObj := { id := "s1", snapshot := "after" }

/-!
## Helper lemmas
-/

/-- Appending a suffix yields an extension in the `StrPfx` order. -/
theorem StrPfx_append_right (a t : String) : StrPfx a (a ++ t) := ⟨t, rfl⟩

/-- `StrPfx` is reflexive. -/
theorem StrPfx_refl (a : String) : StrPfx a a := ⟨"", String.append_empty a⟩

/-- `StrPfx` is transitive. -/
theorem StrPfx_trans {a b c : String} : StrPfx a b → StrPfx b c → StrPfx a c
  | ⟨u, hu⟩, ⟨v, hv⟩ => ⟨u ++ v, by rw [← String.append_assoc, hu, hv]⟩

/-- Adding to the end of a pairwise-related list whose members all relate to
the new element preserves pairwise-relatedness. -/
theorem pairwise_snoc {α : Type} {R : α → α → Prop} :
    ∀ {l : List α} {x : α}, List.Pairwise R l → (∀ a ∈ l, R a x) →
      List.Pairwise R (l ++ [x])
  | [], _, _, _ => by simp
  | a :: rest, x, h, hx => by
    cases h with
    | cons h1 h2 =>
      refine List.Pairwise.cons ?_ (pairwise_snoc h2 ?_)
      · intro b hb
        rcases List.mem_append.mp hb with hb | hb
        · exact h1 b hb
        · have hbx : b = x := by simpa using hb
          subst hbx
          exact hx a (by simp)
      · intro a2 ha2
        exact hx a2 (by simp [ha2])

/-- The invariant the aggregation loop maintains between its accumulator and
its trace of placeholder updates: the trace is ordered by the string prefix
relation and every recorded text is a prefix of the accumulator. -/
def goodTrace (acc : String) (calls : List String) : Prop :=
  List.Pairwise StrPfx calls ∧ ∀ c ∈ calls, StrPfx c acc

/-- Appending one new text piece preserves the trace invariant. -/
theorem goodTrace_snoc {acc : String} {calls : List String} (t : String)
    (h : goodTrace acc calls) : goodTrace (acc ++ t) (calls ++ [acc ++ t]) := by
  rcases h with ⟨hp, hpfx⟩
  constructor
  · refine pairwise_snoc hp ?_
    intro a ha
    exact StrPfx_trans (hpfx a ha) (StrPfx_append_right acc t)
  · intro c hc
    rcases List.mem_append.mp hc with hc | hc
    · exact StrPfx_trans (hpfx c hc) (StrPfx_append_right acc t)
    · have hce : c = acc ++ t := by simpa using hc
      subst hce
      exact StrPfx_refl _

/-- Per-part processing preserves the trace invariant, and the accumulator
only ever grows (in the `StrPfx` order), error or not. -/
theorem processParts_good (ps : List PyVal) :
    ∀ (acc : String) (calls : List String), goodTrace acc calls →
      goodTrace (processParts ps acc calls).1.1 (processParts ps acc calls).1.2 ∧
        StrPfx acc (processParts ps acc calls).1.1 := by
  induction ps with
  | nil =>
    intro acc calls h
    exact ⟨h, StrPfx_refl acc⟩
  | cons p ps ih =>
    intro acc calls h
    cases hin : pyIn "text" p with
    | error e =>
      simp only [processParts, hin]
      exact ⟨h, StrPfx_refl acc⟩
    | ok b =>
      cases b with
      | false =>
        simp only [processParts, hin]
        exact ih acc calls h
      | true =>
        cases hidx : pyIndexStr p "text" with
        | error e =>
          simp only [processParts, hin, hidx]
          exact ⟨h, StrPfx_refl acc⟩
        | ok tv =>
          cases tv with
          | str t =>
            simp only [processParts, hin, hidx]
            have h2 := ih (acc ++ t) (calls ++ [acc ++ t]) (goodTrace_snoc t h)
            exact ⟨h2.1, StrPfx_trans (StrPfx_append_right acc t) h2.2⟩
          | int n =>
            simp only [processParts, hin, hidx]
            exact ⟨h, StrPfx_refl acc⟩
          | dict d =>
            simp only [processParts, hin, hidx]
            exact ⟨h, StrPfx_refl acc⟩
          | list xs =>
            simp only [processParts, hin, hidx]
            exact ⟨h, StrPfx_refl acc⟩
          | none =>
            simp only [processParts, hin, hidx]
            exact ⟨h, StrPfx_refl acc⟩

/-- Per-chunk processing preserves the trace invariant and grows the
accumulator. -/
theorem aggStep_good (chunk : PyVal) (acc : String) (calls : List String)
    (h : goodTrace acc calls) :
    goodTrace (aggStep acc calls chunk).1.1 (aggStep acc calls chunk).1.2 ∧
      StrPfx acc (aggStep acc calls chunk).1.1 := by
  cases chunk with
  | dict entries =>
    cases hc : pyLookup entries "content" with
    | none =>
      simp only [aggStep, hc]
      exact ⟨h, StrPfx_refl acc⟩
    | some content =>
      cases hin : pyIn "parts" content with
      | error e =>
        simp only [aggStep, hc, hin]
        exact ⟨h, StrPfx_refl acc⟩
      | ok b =>
        cases b with
        | false =>
          simp only [aggStep, hc, hin]
          exact ⟨h, StrPfx_refl acc⟩
        | true =>
          cases hidx : pyIndexStr content "parts" with
          | error e =>
            simp only [aggStep, hc, hin, hidx]
            exact ⟨h, StrPfx_refl acc⟩
          | ok pv =>
            cases hit : pyIter pv with
            | error e =>
              simp only [aggStep, hc, hin, hidx, hit]
              exact ⟨h, StrPfx_refl acc⟩
            | ok parts =>
              simp only [aggStep, hc, hin, hidx, hit]
              exact processParts_good parts acc calls h
  | str s =>
    simp only [aggStep]
    exact ⟨goodTrace_snoc s h, StrPfx_append_right acc s⟩
  | int n =>
    simp only [aggStep]
    exact ⟨h, StrPfx_refl acc⟩
  | list xs =>
    simp only [aggStep]
    exact ⟨h, StrPfx_refl acc⟩
  | none =>
    simp only [aggStep]
    exact ⟨h, StrPfx_refl acc⟩

/-- The whole aggregation loop preserves the trace invariant. -/
theorem aggregateAux_good (cs : List PyVal) :
    ∀ acc calls, goodTrace acc calls →
      goodTrace (aggregateAux cs acc calls).1.1 (aggregateAux cs acc calls).1.2 := by
  induction cs with
  | nil =>
    intro acc calls h
    exact h
  | cons c cs ih =>
    intro acc calls h
    have hstep := aggStep_good c acc calls h
    rcases hs : aggStep acc calls c with ⟨⟨acc1, calls1⟩, err⟩
    rw [hs] at hstep
    cases err with
    | none =>
      simp only [aggregateAux, hs]
      exact ih acc1 calls1 hstep.1
    | some e =>
      simp only [aggregateAux, hs]
      exact hstep.1

/-- The trace of placeholder updates never shrinks across part processing. -/
theorem processParts_len (ps : List PyVal) :
    ∀ acc calls, List.length calls ≤ (processParts ps acc calls).1.2.length := by
  induction ps with
  | nil =>
    intro acc calls
    exact Nat.le_refl _
  | cons p ps ih =>
    intro acc calls
    cases hin : pyIn "text" p with
    | error e => simp [processParts, hin]
    | ok b =>
      cases b with
      | false =>
        simp only [processParts, hin]
        exact ih acc calls
      | true =>
        cases hidx : pyIndexStr p "text" with
        | error e => simp [processParts, hin, hidx]
        | ok tv =>
          cases tv with
          | str t =>
            simp only [processParts, hin, hidx]
            refine Nat.le_trans ?_ (ih (acc ++ t) (calls ++ [acc ++ t]))
            simp
          | int n => simp [processParts, hin, hidx]
          | dict d => simp [processParts, hin, hidx]
          | list xs => simp [processParts, hin, hidx]
          | none => simp [processParts, hin, hidx]

/-- The trace never shrinks across chunk processing. -/
theorem aggStep_len (chunk : PyVal) (acc : String) (calls : List String) :
    List.length calls ≤ (aggStep acc calls chunk).1.2.length := by
  cases chunk with
  | dict entries =>
    cases hc : pyLookup entries "content" with
    | none => simp [aggStep, hc]
    | some content =>
      cases hin : pyIn "parts" content with
      | error e => simp [aggStep, hc, hin]
      | ok b =>
        cases b with
        | false => simp [aggStep, hc, hin]
        | true =>
          cases hidx : pyIndexStr content "parts" with
          | error e => simp [aggStep, hc, hin, hidx]
          | ok pv =>
            cases hit : pyIter pv with
            | error e => simp [aggStep, hc, hin, hidx, hit]
            | ok parts =>
              simp only [aggStep, hc, hin, hidx, hit]
              exact processParts_len parts acc calls
  | str s => simp [aggStep]
  | int n => simp [aggStep]
  | list xs => simp [aggStep]
  | none => simp [aggStep]

/-- The trace never shrinks across the whole loop. -/
theorem aggregateAux_len (cs : List PyVal) :
    ∀ acc calls, List.length calls ≤ (aggregateAux cs acc calls).1.2.length := by
  induction cs with
  | nil =>
    intro acc calls
    exact Nat.le_refl _
  | cons c cs ih =>
    intro acc calls
    have h1 := aggStep_len c acc calls
    rcases hs : aggStep acc calls c with ⟨⟨acc1, calls1⟩, err⟩
    rw [hs] at h1
    cases err with
    | none =>
      simp only [aggregateAux, hs]
      exact Nat.le_trans h1 (ih acc1 calls1)
    | some e =>
      simp only [aggregateAux, hs]
      exact h1

/-- A part that carries a string under `"text"` passes both probes the
aggregation loop performs on it. -/
theorem partHasText_probe {p : PyVal} (h : partHasText p = true) :
    ∃ t, pyIn "text" p = .ok true ∧ pyIndexStr p "text" = .ok (.str t) := by
  cases p with
  | dict pd =>
    cases hl : pyLookup pd "text" with
    | none => simp [partHasText, hl] at h
    | some v =>
      cases v with
      | str t =>
        refine ⟨t, ?_, ?_⟩
        · simp [pyIn, hl]
        · simp [pyIndexStr, hl]
      | int n => simp [partHasText, hl] at h
      | dict d => simp [partHasText, hl] at h
      | list xs => simp [partHasText, hl] at h
      | none => simp [partHasText, hl] at h
  | str s => simp [partHasText] at h
  | int n => simp [partHasText] at h
  | list xs => simp [partHasText] at h
  | none => simp [partHasText] at h

/-- If part processing finishes without raising and some part carries text,
at least one placeholder update happened. -/
theorem processParts_observer (ps : List PyVal) :
    ∀ acc calls, (processParts ps acc calls).2 = Option.none →
      ps.any partHasText = true →
      List.length calls < (processParts ps acc calls).1.2.length := by
  induction ps with
  | nil =>
    intro acc calls _ hp
    simp at hp
  | cons p ps ih =>
    intro acc calls herr hp
    cases hin : pyIn "text" p with
    | error e => simp [processParts, hin] at herr
    | ok b =>
      cases b with
      | false =>
        have hpf : partHasText p = false := by
          cases hpt : partHasText p
          · rfl
          · rcases partHasText_probe hpt with ⟨t, h1, _⟩
            rw [hin] at h1
            simp at h1
        simp only [processParts, hin] at herr ⊢
        refine ih acc calls herr ?_
        simpa [List.any_cons, hpf] using hp
      | true =>
        cases hidx : pyIndexStr p "text" with
        | error e => simp [processParts, hin, hidx] at herr
        | ok tv =>
          cases tv with
          | str t =>
            simp only [processParts, hin, hidx]
            have h1 := processParts_len ps (acc ++ t) (calls ++ [acc ++ t])
            have h2 : List.length calls < (calls ++ [acc ++ t]).length := by simp
            omega
          | int n => simp [processParts, hin, hidx] at herr
          | dict d => simp [processParts, hin, hidx] at herr
          | list xs => simp [processParts, hin, hidx] at herr
          | none => simp [processParts, hin, hidx] at herr

/-- If a chunk carries text and its processing does not raise, it produces
at least one placeholder update. -/
theorem aggStep_observer (chunk : PyVal) (acc : String) (calls : List String)
    (herr : (aggStep acc calls chunk).2 = Option.none)
    (hc : specCarriesText chunk = true) :
    List.length calls < (aggStep acc calls chunk).1.2.length := by
  cases chunk with
  | str s => simp [aggStep]
  | dict entries =>
    cases hl : pyLookup entries "content" with
    | none => simp [specCarriesText, hl] at hc
    | some content =>
      cases content with
      | dict c2 =>
        cases hp : pyLookup c2 "parts" with
        | none => simp [specCarriesText, hl, hp] at hc
        | some pv =>
          cases pv with
          | list ps =>
            have hin : pyIn "parts" (PyVal.dict c2) = .ok true := by
              simp [pyIn, hp]
            have hidx : pyIndexStr (PyVal.dict c2) "parts" = .ok (.list ps) := by
              simp [pyIndexStr, hp]
            simp only [aggStep, hl, hin, hidx, pyIter] at herr ⊢
            refine processParts_observer ps acc calls herr ?_
            simpa [specCarriesText, hl, hp] using hc
          | str s => simp [specCarriesText, hl, hp] at hc
          | int n => simp [specCarriesText, hl, hp] at hc
          | dict d => simp [specCarriesText, hl, hp] at hc
          | none => simp [specCarriesText, hl, hp] at hc
      | str s => simp [specCarriesText, hl] at hc
      | int n => simp [specCarriesText, hl] at hc
      | list xs => simp [specCarriesText, hl] at hc
      | none => simp [specCarriesText, hl] at hc
  | int n => simp [specCarriesText] at hc
  | list xs => simp [specCarriesText] at hc
  | none => simp [specCarriesText] at hc

/-- If the whole loop finishes without raising and some yielded chunk
carries text, the trace is strictly longer than it started. -/
theorem aggregateAux_observer (cs : List PyVal) :
    ∀ acc calls, (aggregateAux cs acc calls).2 = Option.none →
      cs.any specCarriesText = true →
      List.length calls < (aggregateAux cs acc calls).1.2.length := by
  induction cs with
  | nil =>
    intro acc calls _ hp
    simp at hp
  | cons c cs ih =>
    intro acc calls herr hany
    rcases hs : aggStep acc calls c with ⟨⟨acc1, calls1⟩, err⟩
    cases err with
    | some e =>
      simp only [aggregateAux, hs] at herr
      exact absurd herr (by simp)
    | none =>
      simp only [aggregateAux, hs] at herr ⊢
      cases hcar : specCarriesText c with
      | true =>
        have h1 := aggStep_observer c acc calls (by rw [hs]) hcar
        rw [hs] at h1
        exact Nat.lt_of_lt_of_le h1 (aggregateAux_len cs acc1 calls1)
      | false =>
        have hany2 : cs.any specCarriesText = true := by
          simpa [List.any_cons, hcar] using hany
        have h1 := aggStep_len c acc calls
        rw [hs] at h1
        exact Nat.lt_of_le_of_lt h1 (ih acc1 calls1 herr hany2)

/-- Reading back the key just written in the messages dictionary. -/
theorem getMsgs_updMsgs_self (m : List (Option String × List Turn))
    (k : Option String) (v : List Turn) : getMsgs (updMsgs m k v) k = some v := by
  induction m with
  | nil => simp [updMsgs, getMsgs]
  | cons kv rest ih =>
    rcases kv with ⟨k1, v1⟩
    by_cases h : k1 = k
    · simp [updMsgs, getMsgs, h]
    · simp [updMsgs, getMsgs, h, ih]

/-- Writing one key of the messages dictionary leaves every other key
unchanged. -/
theorem getMsgs_updMsgs_other (m : List (Option String × List Turn))
    (k k2 : Option String) (v : List Turn) (h : k2 ≠ k) :
    getMsgs (updMsgs m k v) k2 = getMsgs m k2 := by
  induction m with
  | nil => simp [updMsgs, getMsgs, Ne.symm h]
  | cons kv rest ih =>
    rcases kv with ⟨k1, v1⟩
    by_cases h1 : k1 = k
    · subst h1
      simp [updMsgs, getMsgs, Ne.symm h]
    · simp [updMsgs, getMsgs, h1, ih]

/-- The reconciliation overwrite leaves every position holding a session of
a different id untouched. -/
theorem updateSessions_frame (l : List SessionObj) :
    ∀ (i : Nat) (s u : SessionObj) (sid : String),
      l[i]? = some s → s.id ≠ sid →
      (updateSessions l (some sid) u)[i]? = some s := by
  induction l with
  | nil =>
    intro i s u sid h _
    simp at h
  | cons a rest ih =>
    intro i s u sid h hne
    by_cases ha : a.id = sid
    · cases i with
      | zero =>
        have has : a = s := by simpa using h
        exact absurd (has ▸ ha) hne
      | succ i =>
        have h2 : rest[i]? = some s := by simpa using h
        simp [updateSessions, ha, h2]
    · cases i with
      | zero =>
        have has : a = s := by simpa using h
        subst has
        simp [updateSessions, ha]
      | succ i =>
        have h2 : rest[i]? = some s := by simpa using h
        simp [updateSessions, ha]
        exact ih i s u sid h2 hne

/-- Under unique stored ids, the position holding the active session id is
replaced by the fetched object. -/
theorem updateSessions_replace (l : List SessionObj) :
    ∀ (i : Nat) (s u : SessionObj) (sid : String),
      (l.map SessionObj.id).Nodup →
      l[i]? = some s → s.id = sid →
      (updateSessions l (some sid) u)[i]? = some u := by
  induction l with
  | nil =>
    intro i s u sid _ h _
    simp at h
  | cons a rest ih =>
    intro i s u sid hnd h hid
    have hnd2 : a.id ∉ rest.map SessionObj.id ∧ (rest.map SessionObj.id).Nodup := by
      simpa [List.nodup_cons] using hnd
    by_cases ha : a.id = sid
    · cases i with
      | zero => simp [updateSessions, ha]
      | succ i =>
        have h2 : rest[i]? = some s := by simpa using h
        have hmem : s ∈ rest := by
          have := List.get?_eq_getElem? rest i
          exact List.get?_mem (by rw [this, h2])
        have hin : s.id ∈ rest.map SessionObj.id := List.mem_map_of_mem _ hmem
        rw [hid, ← ha] at hin
        exact absurd hin hnd2.1
    · cases i with
      | zero =>
        have has : a = s := by simpa using h
        exact absurd (has ▸ hid) ha
      | succ i =>
        have h2 : rest[i]? = some s := by simpa using h
        simp [updateSessions, ha]
        exact ih i s u sid hnd2.2 h2 hid

/-- Appending one completed `[user, assistant]` exchange preserves strict
role alternation. -/
theorem rolesAlternate_append (u a : Turn) (hu : u.role = Role.user)
    (ha : a.role = Role.assistant) :
    ∀ l, rolesAlternate l = true → rolesAlternate (l ++ [u, a]) = true := by
  have H : ∀ (n : Nat) (l : List Turn), l.length ≤ n → rolesAlternate l = true →
      rolesAlternate (l ++ [u, a]) = true := by
    intro n
    induction n with
    | zero =>
      intro l hl _
      have hnil : l = [] := List.eq_nil_of_length_eq_zero (Nat.le_zero.mp hl)
      subst hnil
      simp [rolesAlternate, hu, ha]
    | succ n ihn =>
      intro l hl h
      cases l with
      | nil => simp [rolesAlternate, hu, ha]
      | cons t1 l2 =>
        cases l2 with
        | nil => simp [rolesAlternate] at h
        | cons t2 rest =>
          have h2 : ((decide (t1.role = Role.user) &&
              decide (t2.role = Role.assistant)) && rolesAlternate rest) = true := h
          rw [Bool.and_eq_true] at h2
          show ((decide (t1.role = Role.user) &&
            decide (t2.role = Role.assistant)) && rolesAlternate (rest ++ [u, a])) = true
          rw [Bool.and_eq_true]
          refine ⟨h2.1, ?_⟩
          refine ihn rest ?_ h2.2
          simp only [List.length_cons] at hl
          omega
  intro l
  exact H l.length l (Nat.le_refl _)

/-- `get_response_and_session` on a stream that ends normally with
well-formed fragments: the accumulated text is returned together with the
fetched session, and the session fetch does run. -/
theorem get_response_ok (chunks : List PyVal) (snap : SessionObj)
    (hok : (aggregate chunks).2 = Option.none) :
    get_response_and_session { chunks := chunks, failure := Option.none } snap =
      { outcome := .ok ((aggregate chunks).1.1, snap),
        rendered := (aggregate chunks).1.2, fetchedSession := true } := by
  rcases h : aggregate chunks with ⟨⟨acc, calls⟩, err⟩
  rw [h] at hok
  simp only at hok
  subst hok
  simp [get_response_and_session, h]

/-- `get_response_and_session` on a stream that raises after its fragments:
the exception propagates unwrapped, and the session fetch never runs. -/
theorem get_response_err (chunks : List PyVal) (e : String) (snap : SessionObj)
    (hok : (aggregate chunks).2 = Option.none) :
    get_response_and_session { chunks := chunks, failure := some e } snap =
      { outcome := .error e, rendered := (aggregate chunks).1.2,
        fetchedSession := false } := by
  rcases h : aggregate chunks with ⟨⟨acc, calls⟩, err⟩
  rw [h] at hok
  simp only at hok
  subst hok
  simp [get_response_and_session, h]

/-- Writing the same key twice keeps only the second value. -/
theorem updMsgs_updMsgs (m : List (Option String × List Turn))
    (k : Option String) (v w : List Turn) :
    updMsgs (updMsgs m k v) k w = updMsgs m k w := by
  induction m with
  | nil => simp [updMsgs]
  | cons kv rest ih =>
    rcases kv with ⟨k1, v1⟩
    by_cases h1 : k1 = k
    · simp [updMsgs, h1]
    · simp [updMsgs, h1, ih]

/-- The state after the user turn has been appended to the active session's
history (lines 148-150), before any network call. -/
def withUserTurn (st : AppState) (prompt : String) : AppState :=
  { st with
      messages := updMsgs st.messages st.session_id
        ((getMsgs st.messages st.session_id).getD [] ++ [⟨Role.user, prompt⟩]) }

/-- The chat handler when the streaming coroutine raised: only the user turn
was appended to the active session's history; nothing else changed and the
exception is re-raised by `asyncio.run`. -/
theorem chatHandler_err_eq (st : AppState) (prompt : String) (run : StreamRun)
    (snap : SessionObj) (e : String)
    (h : (get_response_and_session run snap).outcome = .error e) :
    chatHandler st prompt run snap = (withUserTurn st prompt, some e) := by
  simp [chatHandler, withUserTurn, h]

/-- The state after a successful cycle: user turn then assistant turn
appended to the active history, and the stored session object of the active
id overwritten by the fetched one. -/
def afterCycle (st : AppState) (prompt full : String) (upd : SessionObj) :
    AppState :=
  { st with
      messages := updMsgs st.messages st.session_id
        (((getMsgs st.messages st.session_id).getD [] ++ [⟨Role.user, prompt⟩])
          ++ [⟨Role.assistant, full⟩]),
      sessions := updateSessions st.sessions st.session_id upd }

/-- The chat handler when the streaming coroutine returned: the resulting
state is `afterCycle` and no exception escapes. -/
theorem chatHandler_ok_eq (st : AppState) (prompt : String) (run : StreamRun)
    (snap : SessionObj) (full : String) (upd : SessionObj)
    (h : (get_response_and_session run snap).outcome = .ok (full, upd)) :
    chatHandler st prompt run snap =
      (afterCycle st prompt full upd, Option.none) := by
  have hself := getMsgs_updMsgs_self st.messages st.session_id
    ((getMsgs st.messages st.session_id).getD [] ++ [⟨Role.user, prompt⟩])
  simp [chatHandler, afterCycle, h, hself, updMsgs_updMsgs]

/-!
## Claims
-/

/-- C1 counterexample: with the stream yielding one text fragment and then
raising `"boom"`, the coroutine does not reach `async_get_session`
(`fetchedSession = false`), the raised error is the bare underlying cause
(no wrapping, no partial text attached), and the committed history holds
only the user turn — contrary to the claim that reconciliation still runs
and the partial text is committed. -/
theorem stream_error_claim_counterexample :
    (get_response_and_session
      { chunks := [textEvent "Ticker "], failure := some "boom" }
      fetchedA).fetchedSession = false ∧
    (get_response_and_session
      { chunks := [textEvent "Ticker "], failure := some "boom" }
      fetchedA).outcome = .error "boom" ∧
    (chatHandler st0 "GOOGL"
      { chunks := [textEvent "Ticker "], failure := some "boom" }
      fetchedA).1.messages = [(some "s1", [⟨Role.user, "GOOGL"⟩])] ∧
    (chatHandler st0 "GOOGL"
      { chunks := [textEvent "Ticker "], failure := some "boom" }
      fetchedA).2 = some "boom" := by
  refine ⟨rfl, rfl, ?_, rfl⟩
  rfl

/-- C1 (amended): on an error raised mid-iteration, aggregation stops and
the partial text has been rendered through the placeholder updates, but the
raw exception propagates unwrapped out of the cycle: `async_get_session` is
never invoked, no assistant turn is committed, and the state keeps exactly
the user turn appended before the query. -/
theorem stream_error_aborts_cycle (st : AppState) (prompt : String)
    (chunks : List PyVal) (e : String) (snap : SessionObj)
    (hok : (aggregate chunks).2 = Option.none) :
    chatHandler st prompt { chunks := chunks, failure := some e } snap =
      (withUserTurn st prompt, some e) ∧
    (get_response_and_session { chunks := chunks, failure := some e }
      snap).fetchedSession = false ∧
    (get_response_and_session { chunks := chunks, failure := some e }
      snap).outcome = .error e ∧
    (get_response_and_session { chunks := chunks, failure := some e }
      snap).rendered = (aggregate chunks).1.2 := by
  have hg := get_response_err chunks e snap hok
  refine ⟨?_, ?_, ?_, ?_⟩
  · exact chatHandler_err_eq st prompt _ snap e (by rw [hg])
  · rw [hg]
  · rw [hg]
  · rw [hg]

/-- Witness for C1's amended theorem at a concrete erroring stream. -/
theorem stream_error_aborts_cycle_witness :
    chatHandler st0 "GOOGL"
      { chunks := [textEvent "Ticker "], failure := some "boom" } fetchedA =
      (withUserTurn st0 "GOOGL", some "boom") :=
  (stream_error_aborts_cycle st0 "GOOGL" [textEvent "Ticker "] "boom" fetchedA
    (by decide)).1

/-- A fragment whose first part raises a `TypeError` before its second,
text-carrying part is reached. -/
def poisonEvent : PyVal :=
  .dict [("content", .dict [("parts",
    .list [.int 5, .dict [("text", .str "hi")]])])]

/-- C2 counterexample: a yielded fragment that carries text (its second
part holds `{"text": "hi"}`) produces zero observer calls, because probing
its first part raises a `TypeError` that aborts aggregation — contrary to
the claim that the observer runs at least once whenever the sequence yields
a text-carrying fragment. -/
theorem observer_claim_counterexample :
    specCarriesText poisonEvent = true ∧
    (aggregate [poisonEvent]).1.2 = [] ∧
    (aggregate [poisonEvent]).2 =
      some "TypeError: argument of type int is not iterable" := by
  refine ⟨rfl, rfl, rfl⟩

/-- C2 (amended): for every fragment sequence the accumulated texts passed
to the observer are totally ordered by the string prefix relation (also
when aggregation is cut short by an error), and the observer runs at least
once provided the sequence yields a text-carrying fragment and no fragment
aborts aggregation by raising. -/
theorem observer_monotonic (chunks : List PyVal) :
    List.Pairwise StrPfx (aggregate chunks).1.2 ∧
    ((aggregate chunks).2 = Option.none → chunks.any specCarriesText = true →
      (aggregate chunks).1.2 ≠ []) := by
  constructor
  · exact (aggregateAux_good chunks "" [] ⟨List.Pairwise.nil, by simp⟩).1
  · intro herr hany hnil
    have h0 : 0 < (aggregate chunks).1.2.length :=
      aggregateAux_observer chunks "" [] herr hany
    rw [hnil] at h0
    exact absurd h0 (by simp)

/-- Witness for C2's amended theorem on a one-fragment stream. -/
theorem observer_monotonic_witness :
    List.Pairwise StrPfx (aggregate [PyVal.str "hi"]).1.2 ∧
    (aggregate [PyVal.str "hi"]).1.2 ≠ [] :=
  ⟨(observer_monotonic [PyVal.str "hi"]).1,
   (observer_monotonic [PyVal.str "hi"]).2 (by decide) (by decide)⟩

/-- C3: the concrete scenario — session created for `u1`, message `GOOGL`
submitted, stream yields the `Ticker ` and `GOOGL` text events then ends:
the aggregated text is `Ticker GOOGL`, the cycle commits it as the
assistant turn, and the session's history is exactly
`[user GOOGL, assistant Ticker GOOGL]`. -/
theorem scenario_ticker_googl :
    (aggregate [textEvent "Ticker ", textEvent "GOOGL"]).1.1 = "Ticker GOOGL" ∧
    (chatHandler
      (create_new_session
        { session_id := Option.none, sessions := [], messages := [],
          user_id := "u1" }
        (.ok { id := "s1", snapshot := "init" })).1
      "GOOGL"
      { chunks := [textEvent "Ticker ", textEvent "GOOGL"],
        failure := Option.none }
      { id := "s1", snapshot := "after" }).1.messages =
      [(some "s1",
        [⟨Role.user, "GOOGL"⟩, ⟨Role.assistant, "Ticker GOOGL"⟩])] ∧
    (chatHandler
      (create_new_session
        { session_id := Option.none, sessions := [], messages := [],
          user_id := "u1" }
        (.ok { id := "s1", snapshot := "init" })).1
      "GOOGL"
      { chunks := [textEvent "Ticker ", textEvent "GOOGL"],
        failure := Option.none }
      { id := "s1", snapshot := "after" }).2 = Option.none := by
  refine ⟨rfl, ?_, ?_⟩ <;> rfl

/-- C4 counterexample: the dictionary `{"content": 5}` is neither a
structured event with content parts nor a raw string, yet it is not skipped:
probing `"parts" in chunk["content"]` raises a `TypeError` that aborts
aggregation; the same fragment class (a bare `5`) likewise aborts the
`use_agent.py` loop at `"content" in event`. -/
theorem unknown_fragment_claim_counterexample :
    isStructuredEvent (PyVal.dict [("content", PyVal.int 5)]) = false ∧
    isRawString (PyVal.dict [("content", PyVal.int 5)]) = false ∧
    (aggregate [PyVal.dict [("content", PyVal.int 5)]]).2 =
      some "TypeError: argument of type int is not iterable" ∧
    (useAgentRun [PyVal.int 5] []).2 =
      some "TypeError: argument of type int is not iterable" := by
  refine ⟨rfl, rfl, rfl, rfl⟩

/-- The fragment shapes the Streamlit loop is guaranteed to skip without
raising: non-dictionary non-string values, dictionaries without a
`"content"` member, and dictionaries whose content is a dictionary without
a `"parts"` member. -/
def safeSkip : PyVal → Bool
  | .int _ => true
  | .none => true
  | .list _ => true
  | .str _ => false
  | .dict entries =>
    match pyLookup entries "content" with
    | Option.none => true
    | some (.dict c) => (pyLookup c "parts").isNone
    | some _ => false

/-- C4 (amended): every fragment that is neither a dictionary nor a string,
every dictionary lacking a `"content"` member, and every dictionary whose
content is a dictionary lacking `"parts"`, is skipped by the aggregation
loop — no text contribution, no observer call, no raised error — and the
loop continues with the next fragment.  (Other malformed dictionaries, such
as `{"content": 5}`, raise a `TypeError` instead, and the `use_agent.py`
loop raises on any non-iterable fragment.) -/
theorem unknown_fragment_skipped (acc : String) (calls : List String)
    (chunk : PyVal) (cs : List PyVal) (h : safeSkip chunk = true) :
    aggStep acc calls chunk = ((acc, calls), Option.none) ∧
    aggregateAux (chunk :: cs) acc calls = aggregateAux cs acc calls := by
  have hstep : aggStep acc calls chunk = ((acc, calls), Option.none) := by
    cases chunk with
    | int n => simp [aggStep]
    | none => simp [aggStep]
    | list xs => simp [aggStep]
    | str s => simp [safeSkip] at h
    | dict entries =>
      cases hl : pyLookup entries "content" with
      | none => simp [aggStep, hl]
      | some content =>
        cases content with
        | dict c2 =>
          have hp : (pyLookup c2 "parts").isNone = true := by
            simpa [safeSkip, hl] using h
          have hin : pyIn "parts" (PyVal.dict c2) = .ok false := by
            simp [pyIn, Option.isNone_iff_eq_none.mp hp]
          simp [aggStep, hl, hin]
        | str s => simp [safeSkip, hl] at h
        | int n => simp [safeSkip, hl] at h
        | list xs => simp [safeSkip, hl] at h
        | none => simp [safeSkip, hl] at h
  refine ⟨hstep, ?_⟩
  simp only [aggregateAux, hstep]

/-- Witness for C4's amended theorem: an integer fragment ahead of a text
fragment is skipped and the text still aggregates. -/
theorem unknown_fragment_skipped_witness :
    aggStep "" [] (PyVal.int 7) = (("", []), Option.none) ∧
    aggregateAux [PyVal.int 7, PyVal.str "hi"] "" [] =
      aggregateAux [PyVal.str "hi"] "" [] :=
  unknown_fragment_skipped "" [] (PyVal.int 7) [PyVal.str "hi"] (by decide)

/-- C5 counterexample: a cycle whose stream raises leaves a dangling user
turn, so after a following successful cycle the history reads
`[user, user, assistant]` — roles do not strictly alternate, contrary to
the claimed invariant. -/
theorem turn_alternation_counterexample :
    getMsgs (chatHandler
      (chatHandler st0 "a" { chunks := [], failure := some "boom" } fetchedA).1
      "b" { chunks := [PyVal.str "ok"], failure := Option.none } fetchedA).1.messages
      (some "s1") =
      some [⟨Role.user, "a"⟩, ⟨Role.user, "b"⟩, ⟨Role.assistant, "ok"⟩] ∧
    rolesAlternate
      [⟨Role.user, "a"⟩, ⟨Role.user, "b"⟩, ⟨Role.assistant, "ok"⟩] = false := by
  refine ⟨?_, rfl⟩
  rfl

/-- C5 (amended): per cycle the user turn is appended first (it is present
even when the stream errors out and no assistant turn is committed); on a
successful cycle exactly the pair `[user, assistant]` is appended, turns
are append-only, and strict role alternation is preserved across cycles
that complete successfully. -/
theorem turn_append_discipline (st : AppState) (prompt : String)
    (run : StreamRun) (snap : SessionObj) (sid : String) (old : List Turn)
    (hsid : st.session_id = some sid)
    (hold : getMsgs st.messages (some sid) = some old) :
    (∀ e, (get_response_and_session run snap).outcome = .error e →
      getMsgs (chatHandler st prompt run snap).1.messages (some sid) =
        some (old ++ [⟨Role.user, prompt⟩])) ∧
    (∀ full upd, (get_response_and_session run snap).outcome = .ok (full, upd) →
      getMsgs (chatHandler st prompt run snap).1.messages (some sid) =
        some ((old ++ [⟨Role.user, prompt⟩]) ++ [⟨Role.assistant, full⟩]) ∧
      (rolesAlternate old = true →
        rolesAlternate
          ((old ++ [⟨Role.user, prompt⟩]) ++ [⟨Role.assistant, full⟩]) = true)) := by
  constructor
  · intro e he
    rw [chatHandler_err_eq st prompt run snap e he]
    simp [withUserTurn, hsid, hold, getMsgs_updMsgs_self]
  · intro full upd hf
    rw [chatHandler_ok_eq st prompt run snap full upd hf]
    constructor
    · simp [afterCycle, hsid, hold, getMsgs_updMsgs_self]
    · intro halt
      have h2 := rolesAlternate_append ⟨Role.user, prompt⟩ ⟨Role.assistant, full⟩
        rfl rfl old halt
      simpa [List.append_assoc] using h2

/-- Witness for C5's amended theorem on a concrete successful cycle. -/
theorem turn_append_discipline_witness :
    getMsgs (chatHandler st0 "GOOGL"
        { chunks := [PyVal.str "ok"], failure := Option.none } fetchedA).1.messages
      (some "s1") =
      some (([] ++ [⟨Role.user, "GOOGL"⟩]) ++ [⟨Role.assistant, "ok"⟩]) :=
  ((turn_append_discipline st0 "GOOGL"
      { chunks := [PyVal.str "ok"], failure := Option.none } fetchedA "s1" []
      rfl rfl).2 "ok" fetchedA rfl).1

/-- C7: after every completed query on the active session the session fetch
runs and its result overwrites exactly the stored entry whose id is the
active session id: the store becomes `updateSessions` of the old store,
every position holding a different id is unchanged, and (under unique
stored ids) the position holding the active id now holds the fetched
snapshot. -/
theorem reconciliation_overwrites_active (st : AppState) (prompt : String)
    (chunks : List PyVal) (snap : SessionObj) (sid : String)
    (hsid : st.session_id = some sid)
    (hok : (aggregate chunks).2 = Option.none) :
    (get_response_and_session { chunks := chunks, failure := Option.none }
      snap).fetchedSession = true ∧
    (chatHandler st prompt { chunks := chunks, failure := Option.none }
      snap).1.sessions = updateSessions st.sessions (some sid) snap ∧
    (∀ (i : Nat) (s : SessionObj), st.sessions[i]? = some s → s.id ≠ sid →
      (chatHandler st prompt { chunks := chunks, failure := Option.none }
        snap).1.sessions[i]? = some s) ∧
    ((st.sessions.map SessionObj.id).Nodup →
      ∀ (i : Nat) (s : SessionObj), st.sessions[i]? = some s → s.id = sid →
      (chatHandler st prompt { chunks := chunks, failure := Option.none }
        snap).1.sessions[i]? = some snap) := by
  have hg := get_response_ok chunks snap hok
  have hout : (get_response_and_session
      { chunks := chunks, failure := Option.none } snap).outcome =
      .ok ((aggregate chunks).1.1, snap) := by rw [hg]
  have hch := chatHandler_ok_eq st prompt _ snap _ snap hout
  have hsess : (chatHandler st prompt
      { chunks := chunks, failure := Option.none } snap).1.sessions =
      updateSessions st.sessions (some sid) snap := by
    rw [hch]
    simp [afterCycle, hsid]
  refine ⟨by rw [hg], hsess, ?_, ?_⟩
  · intro i s hi hne
    rw [hsess]
    exact updateSessions_frame st.sessions i s snap sid hi hne
  · intro hnd i s hi hid
    rw [hsess]
    exact updateSessions_replace st.sessions i s snap sid hnd hi hid

/-- Witness for C7 on a concrete successful cycle. -/
theorem reconciliation_overwrites_active_witness :
    (chatHandler st0 "hi" { chunks := [PyVal.str "ok"], failure := Option.none }
      fetchedA).1.sessions = updateSessions st0.sessions (some "s1") fetchedA :=
  (reconciliation_overwrites_active st0 "hi" [PyVal.str "ok"] fetchedA "s1"
    rfl (by decide)).2.1

/-- C8: the reconciliation overwrite is idempotent — when the fetched
snapshot carries the session id it was fetched for (as `getSession` returns
the same session), applying the overwrite twice with the same snapshot
equals applying it once. -/
theorem reconciliation_idempotent (l : List SessionObj) (sid : String)
    (u : SessionObj) (hid : u.id = sid) :
    updateSessions (updateSessions l (some sid) u) (some sid) u =
      updateSessions l (some sid) u := by
  induction l with
  | nil => simp [updateSessions]
  | cons a rest ih =>
    by_cases ha : a.id = sid
    · simp [updateSessions, ha, hid]
    · simp [updateSessions, ha, ih]

/-- Witness for C8 on concrete store and snapshot. -/
theorem reconciliation_idempotent_witness :
    updateSessions (updateSessions st0.sessions (some "s1") fetchedA)
        (some "s1") fetchedA =
      updateSessions st0.sessions (some "s1") fetchedA :=
  reconciliation_idempotent st0.sessions "s1" fetchedA rfl

/-- C9: a failing `create_session` call aborts the creation atomically —
the exception is surfaced verbatim and the state is returned exactly as it
was: no session id set, no store entry appended, no history created.  (The
embedding consumes exactly one `create_session` outcome per attempt, so no
retry is possible.) -/
theorem create_session_failure_atomic (st : AppState) (e : String) :
    create_new_session st (.error e) = (st, some e) := rfl

/-- C10: a query cycle touches only the message history keyed by the active
session id — every other key reads back unchanged — and switching the
active session rewrites only the current-session pointer, leaving
histories, the session store and the user identity intact. -/
theorem history_isolation (st : AppState) (prompt : String) (run : StreamRun)
    (snap : SessionObj) (k : Option String) (sel : String)
    (hk : k ≠ st.session_id) :
    getMsgs (chatHandler st prompt run snap).1.messages k =
      getMsgs st.messages k ∧
    (chatHandler st prompt run snap).1.session_id = st.session_id ∧
    (chatHandler st prompt run snap).1.user_id = st.user_id ∧
    (selectSession st sel).messages = st.messages ∧
    (selectSession st sel).sessions = st.sessions ∧
    (selectSession st sel).user_id = st.user_id := by
  have hmain : getMsgs (chatHandler st prompt run snap).1.messages k =
      getMsgs st.messages k ∧
      (chatHandler st prompt run snap).1.session_id = st.session_id ∧
      (chatHandler st prompt run snap).1.user_id = st.user_id := by
    cases ho : (get_response_and_session run snap).outcome with
    | error e =>
      rw [chatHandler_err_eq st prompt run snap e ho]
      refine ⟨?_, rfl, rfl⟩
      simp [withUserTurn, getMsgs_updMsgs_other _ _ _ _ hk]
    | ok p =>
      rcases p with ⟨full, upd⟩
      rw [chatHandler_ok_eq st prompt run snap full upd ho]
      refine ⟨?_, rfl, rfl⟩
      simp [afterCycle, getMsgs_updMsgs_other _ _ _ _ hk]
  refine ⟨hmain.1, hmain.2.1, hmain.2.2, ?_, ?_, ?_⟩
  · unfold selectSession
    split <;> rfl
  · unfold selectSession
    split <;> rfl
  · unfold selectSession
    split <;> rfl

/-- Witness for C10 at a concrete non-active key and selection. -/
theorem history_isolation_witness :
    getMsgs (chatHandler st0 "hi" { chunks := [], failure := Option.none }
        fetchedA).1.messages (some "other") =
      getMsgs st0.messages (some "other") :=
  (history_isolation st0 "hi" { chunks := [], failure := Option.none }
    fetchedA (some "other") "s2" (by decide)).1
